import Mathlib

/-!
Verification development for the FGlue template/merge engine (src/fgluue.py).

The Python engine is shallowly embedded here:
* Python strings are Lean `String`s (sequences of unicode code points, which is
  what Python `len`/indexing count).  Texts are assumed to use only the
  newline character as a line separator, and `str.lower`/`upper`/`isdigit`
  are modelled on their ASCII behaviour, which covers every directive name
  and every input exercised below.
* The filesystem is an oracle record `FS`: a text read that can fail
  (`open(...).read()` raising is `none`), a size query, the two raw-byte
  hex digests (a failing raw read is `none`), and the three `strftime`
  formatted timestamps.
* The process-wide class attributes of `FileContext` form a `Session`
  value that is threaded explicitly.
* Exceptions escaping a render or a merge are modelled with
  `Except String`; the error string plays the role of the Python
  exception type.
-/

set_option maxHeartbeats 1000000

namespace FGlue

/-! ### Python string primitives

Core `String` functions that are implemented over byte positions do not
reduce inside the kernel, so splitting, joining, case mapping and prefix
tests are (re)defined here over character lists. -/

/-- Split at every character satisfying `p`, keeping empty parts
(the semantics of `str.split(sep)` for a one-character separator). -/
def splitPredGo (p : Char → Bool) (acc : List Char) : List Char → List String
  | [] => [String.mk acc]
  | x :: xs => if p x then String.mk acc :: splitPredGo p [] xs else splitPredGo p (acc ++ [x]) xs

def splitOnChar (c : Char) (s : String) : List String :=
  splitPredGo (fun x => x == c) [] s.toList

/-- `sep.join(parts)`. -/
def joinWith (sep : String) : List String → String
  | [] => ("")
  | [x] => x
  | x :: xs => x ++ sep ++ joinWith sep xs

/-- ASCII `str.lower`. -/
def lowerStr (s : String) : String := String.mk (s.toList.map Char.toLower)

/-- ASCII `str.upper`. -/
def upperStr (s : String) : String := String.mk (s.toList.map Char.toUpper)

/-- `str.startswith`. -/
def strHeadIs (s pre : String) : Bool := pre.toList.isPrefixOf s.toList

/-- Python `str.splitlines` restricted to newline-separated text:
`"a\nb\n"` gives `["a", "b"]`, a trailing newline yields no empty last line. -/
def pySplitlines (s : String) : List String :=
  let parts := splitOnChar '\n' s
  if parts.getLast? = some ("") then parts.dropLast else parts

/-- Python `str.split()` with no separator: whitespace-delimited tokens,
empty tokens dropped. -/
def pyWords (s : String) : List String :=
  (splitPredGo Char.isWhitespace [] s.toList).filter (fun w => w != "")

/-- Python `str.strip()` (ASCII whitespace). -/
def pyStrip (s : String) : String :=
  String.mk (((s.toList.dropWhile Char.isWhitespace).reverse.dropWhile Char.isWhitespace).reverse)

/-- Python `str.isdigit` on ASCII text: nonempty and all decimal digits. -/
def pyIsDigit (s : String) : Bool :=
  s != "" && s.toList.all Char.isDigit

/-- Decimal value of a digit string. -/
def natFromDigits (ds : List Char) : Nat :=
  ds.foldl (fun a c => 10 * a + (c.toNat - 48)) 0

/-- Value of an `isdigit`-checked argument, as `int(...)` computes it. -/
def natOf (s : String) : Nat := natFromDigits s.toList

/-- Python `int(str)`: optional surrounding whitespace, optional sign,
then a nonempty run of decimal digits; anything else raises `ValueError`
(`none`).  Exotic accepted forms (underscores, non-ASCII digits) are not
modelled; no input below uses them. -/
def pyInt (s : String) : Option Int :=
  let t := (pyStrip s).toList
  match t with
  | '-' :: ds => if ds ≠ [] ∧ ds.all Char.isDigit then some (-(natFromDigits ds : Int)) else none
  | '+' :: ds => if ds ≠ [] ∧ ds.all Char.isDigit then some ((natFromDigits ds : Int)) else none
  | ds => if ds ≠ [] ∧ ds.all Char.isDigit then some ((natFromDigits ds : Int)) else none

/-- Normalisation of one slice endpoint, as Python does for `l[a:b]`. -/
def pySliceIdx (len : Nat) (i : Int) : Nat :=
  if i < 0 then ((len : Int) + i).toNat else min i.toNat len

/-- Python `l[a:b]` (step 1), including negative-index wrap-around. -/
def pySliceList {α : Type} (l : List α) (a b : Int) : List α :=
  let la := pySliceIdx l.length a
  let lb := pySliceIdx l.length b
  (l.drop la).take (lb - la)

/-- Python `l[a:]` (step 1). -/
def pySliceFrom {α : Type} (l : List α) (a : Int) : List α :=
  l.drop (pySliceIdx l.length a)

/-- Python `str.title` on ASCII letters: a letter not preceded by a letter
is uppercased, every other letter lowercased. -/
def pyTitleGo : Bool → List Char → List Char
  | _, [] => []
  | prevAlpha, c :: cs =>
    (if c.isAlpha then (if prevAlpha then c.toLower else c.toUpper) else c) :: pyTitleGo c.isAlpha cs

def pyTitle (s : String) : String := String.mk (pyTitleGo false s.toList)

/-! ### `os.path` (POSIX flavour) -/

/-- Index of the last occurrence of a character. -/
def lastIdxOf (c : Char) (cs : List Char) : Option Nat :=
  ((cs.enum.filter (fun p => p.2 == c)).getLast?).map (fun p => p.1)

/-- `os.path.basename`: the part after the last separator. -/
def basename (p : String) : String :=
  String.mk ((p.toList.reverse.takeWhile (fun c => c != '/')).reverse)

/-- `os.path.dirname`. -/
def dirname (p : String) : String :=
  let cs := p.toList
  match lastIdxOf '/' cs with
  | none => ("")
  | some k =>
    let head := cs.take (k + 1)
    if head.all (fun c => c == '/') then String.mk head
    else String.mk ((head.reverse.dropWhile (fun c => c == '/')).reverse)

/-- `os.path.splitext`: split at the last dot of the basename, provided a
non-dot character precedes it within the basename. -/
def splitext (p : String) : String × String :=
  let cs := p.toList
  let basePos : Nat := match lastIdxOf '/' cs with | none => 0 | some k => k + 1
  match lastIdxOf '.' cs with
  | none => (p, (""))
  | some d =>
    if basePos ≤ d ∧ (((cs.drop basePos).take (d - basePos)).any (fun c => c != '.')) = true then
      (String.mk (cs.take d), String.mk (cs.drop d))
    else (p, (""))

/-- `os.path.splitdrive` on POSIX: the drive is always empty. -/
def splitdrive (p : String) : String × String := ((""), p)

/-- `os.path.normpath` (POSIX). -/
def normpath (p : String) : String :=
  if p = "" then (".") else
  let initSlashes : Nat :=
    if strHeadIs p ("//") ∧ ¬ strHeadIs p ("///") then 2
    else if strHeadIs p ("/") then 1 else 0
  let comps := (splitOnChar '/' p).filter (fun c => c != "" && c != ".")
  let newComps := comps.foldl (fun acc comp =>
      if comp ≠ ".." then acc ++ [comp]
      else if (initSlashes = 0 ∧ acc = []) ∨ (acc ≠ [] ∧ acc.getLast? = some ("..")) then acc ++ [comp]
      else if acc ≠ [] then acc.dropLast else acc) []
  let res := String.mk (List.replicate initSlashes '/') ++ joinWith ("/") newComps
  if res = "" then (".") else res

/-- The `.replace("/", "\\")` applied to `{path}` and `{folder}` values. -/
def slashToBack (s : String) : String :=
  String.mk (s.toList.map (fun c => if c == '/' then '\\' else c))

/-- Python `str.lstrip(".")`: drop every leading dot. -/
def lstripDots (s : String) : String :=
  String.mk (s.toList.dropWhile (fun c => c == '.'))

/-! ### The filesystem oracle -/

/-- The ambient filesystem, as the engine observes it.  `read` is the
UTF-8 text read done by `FileContext.__init__` and by the batch total
pre-scan (`none` models any raising `open`/`read`/decode).  `md5` and
`sha1` are the hex digests of the raw bytes (`none` models a raising
`open(path, "rb")`).  `size` models `os.path.getsize`, and the three
`*Fmt` fields model `datetime.fromtimestamp(os.stat(...)).strftime(fmt)`
for ctime/mtime/atime. -/
structure FS where
  read : String → Option String
  size : String → Option Nat
  md5 : String → Option String
  sha1 : String → Option String
  ctimeFmt : String → String → Option String
  mtimeFmt : String → String → Option String
  atimeFmt : String → String → Option String

/-! ### Session counters (the class attributes of `FileContext`) -/

structure Session where
  files_counter : Nat
  current_files_count : Nat
  current_lines_count : Nat
  current_words_count : Nat
  current_chars_count : Nat
  total_files : Nat
  total_lines : Nat
  total_words : Nat
  total_chars : Nat
deriving DecidableEq, Repr

/-- The all-zero counter state. -/
def Session.init : Session := ⟨0, 0, 0, 0, 0, 0, 0, 0, 0⟩

/-- `FileContext.reset_counters`: every counter of both layers, including
`files_counter`, is set to 0. -/
def reset_counters (_s : Session) : Session := Session.init

/-! ### FileContext -/

/-- One per-file context plus the session state as visible to it.
`sess` is the snapshot of the class attributes after this context's
construction incremented them (nothing else mutates them before the
context is rendered).  `skip_file` mirrors the `getattr(self,
"skip_file", False)` gate; no code path of this revision ever sets it. -/
structure FileContext where
  path : String
  content : String
  lines : List String
  lines_count : Nat
  words_count : Nat
  chars_count : Nat
  sess : Session
  skip_file : Bool
deriving DecidableEq, Repr

/-- `FileContext.__init__`: read the file (empty content on failure),
derive the metrics, and bump `files_counter` and the `current_*` layer. -/
def mkFileContext (fs : FS) (sess : Session) (path : String) : FileContext :=
  let content := (fs.read path).getD ("")
  let lines := pySplitlines content
  let lc := lines.length
  let wc := (pyWords content).length
  let cc := content.length
  { path := path
    content := content
    lines := lines
    lines_count := lc
    words_count := wc
    chars_count := cc
    sess := { sess with
      files_counter := sess.files_counter + 1
      current_files_count := sess.current_files_count + 1
      current_lines_count := sess.current_lines_count + lc
      current_words_count := sess.current_words_count + wc
      current_chars_count := sess.current_chars_count + cc }
    skip_file := false }

/-! ### `_human_size` -/

/-- The `f"{size:.2f}"` formatting of a nonnegative rational: the value
rounded to hundredths, printed with exactly two digits after the point.
(The float rounding of CPython may differ in the last ulp; only the shape
of the output is relied on below.) -/
def formatTwoDec (q : ℚ) : String :=
  let m : Nat := (⌊q * 100 + 1 / 2⌋).toNat
  toString (m / 100) ++ (".") ++ String.mk [Nat.digitChar (m / 10 % 10), Nat.digitChar (m % 10)]

/-- The larger units of `_human_size`'s ladder ("КБ" … "ТБ"). -/
def hsUnits : List String := [("КБ"), ("МБ"), ("ГБ"), ("ТБ")]

/-- The loop of `_human_size` after the first (integer) iteration:
`size` has become a quotient; stop at the first unit where it is below
1024, else keep dividing.  Falling off the list is Python's implicit
`return None`. -/
def humanSizeAux : List String → ℚ → Option String
  | [], _ => none
  | u :: rest, q =>
    if q < 1024 then some (formatTwoDec q ++ (" ") ++ u) else humanSizeAux rest (q / 1024)

/-- `FileContext._human_size`.  Python returns `None` (not a string) when
the unit list is exhausted, hence the `Option`. -/
def human_size (n : Nat) : Option String :=
  if n < 1024 then some (toString n ++ (" Б")) else humanSizeAux hsUnits ((n : ℚ) / 1024)

/-- `str(x)` as `_apply_placeholder` applies it to `_human_size`'s result:
`str(None)` is the four-letter string. -/
def pyStrOpt (o : Option String) : String := o.getD ("None")

/-! ### Directive token matching

`_apply_placeholder`/`_apply_content_modifier` substitute with the regex
`{(pat)(?:\:([^}]+))?}` where `pat` is a literal (it may itself contain a
colon, as in `hash:md5`); the `delete_line` variants use `[^}]*` for the
payload.  `find_placeholders` uses `{([a-zA-Z0-9_]+)(?:\:([^}]+))?}`.
Both are deterministic: the payload is the maximal run of non-`}`
characters and must be followed by `}`.  Payloads are assumed not to
contain newlines (none in this repository does), which makes the
whole-line–removal chunk model below exact. -/

/-- Argument list of a payload: split on `;`, empty parts kept. -/
def splitArgs (payload : List Char) : List String :=
  splitPredGo (fun c => c == ';') [] payload

/-- Try to match `{pat}` / `{pat:payload}` at the head of `cs`.  With
`allowEmpty` (the `delete_line` regexes) the payload may be empty.
Returns the parsed arguments and the characters after the token. -/
def litMatchAt (pat : List Char) (allowEmpty : Bool) (cs : List Char) : Option (List String × List Char) :=
  match cs with
  | '{' :: rest =>
    if rest.take pat.length = pat then
      match rest.drop pat.length with
      | '}' :: rest2 => some ([], rest2)
      | ':' :: rest2 =>
        let payload := rest2.takeWhile (fun c => c != '}')
        if payload.isEmpty ∧ ¬ allowEmpty then none
        else match rest2.drop payload.length with
          | '}' :: rest3 => some (splitArgs payload, rest3)
          | _ => none
      | _ => none
    else none
  | _ => none

/-- Whether some position of `cs` starts a `{pat...}` token. -/
def hasTok (pat : List Char) (allowEmpty : Bool) : List Char → Bool
  | [] => false
  | c :: cs => (litMatchAt pat allowEmpty (c :: cs)).isSome || hasTok pat allowEmpty cs

/-- String-level wrapper for the non-`delete_line` token test. -/
def hasTokS (pat s : String) : Bool := hasTok pat.toList false s.toList

/-- One substitution pass of `re.sub` with a replacement closure: scan
left to right, replace each non-overlapping token occurrence by the
resolver's output (threading a state, and propagating exceptions), copy
everything else.  `fuel` bounds the recursion; `fuel ≥ cs.length` makes
it complete (each step consumes at least one character). -/
def substGo {σ : Type} (pat : List Char) (resolve : σ → List String → Except String (σ × String)) :
    Nat → σ → List Char → Except String (σ × List Char)
  | 0, st, cs => .ok (st, cs)
  | _ + 1, st, [] => .ok (st, [])
  | fuel + 1, st, c :: cs =>
    match litMatchAt pat false (c :: cs) with
    | some (args, rest) =>
      match resolve st args with
      | .error e => .error e
      | .ok (st1, out) =>
        match substGo pat resolve fuel st1 rest with
        | .error e => .error e
        | .ok (st2, tailOut) => .ok (st2, out.toList ++ tailOut)
    | none =>
      match substGo pat resolve fuel st cs with
      | .error e => .error e
      | .ok (st1, tailOut) => .ok (st1, c :: tailOut)

/-- `re.sub(r"{(pat)(?:\:([^}]+))?}", repl, s)` with a state-threading,
possibly raising replacement. -/
def substT {σ : Type} (pat : String) (resolve : σ → List String → Except String (σ × String))
    (st : σ) (s : String) : Except String (σ × String) :=
  match substGo pat.toList resolve s.toList.length st s.toList with
  | .error e => .error e
  | .ok (st1, cs) => .ok (st1, String.mk cs)

/-- Rebuild a newline-split text, dropping the lines marked `false`
together with their trailing newline (the last part has none). -/
def rebuildLines : List (String × Bool) → String
  | [] => ("")
  | [(part, keep)] => if keep then part else ("")
  | (part, keep) :: rest => (if keep then part ++ ("\n") else ("")) ++ rebuildLines rest

/-- The `delete_line=True` substitution `re.sub(r".*{pat(?:\:[^}]*)?}.*\n?", "", s)`:
every line containing a `{pat...}` token vanishes with its newline. -/
def deleteLinesTok (pat : String) (s : String) : String :=
  rebuildLines ((splitOnChar '\n' s).map (fun part => (part, ! hasTok pat.toList true part.toList)))

/-- Case-insensitive test for a literal token inside a line
(the boundary-marker regexes carry `re.IGNORECASE`; ASCII fold). -/
def containsCI (tok : List Char) : List Char → Bool
  | [] => false
  | c :: cs => ((((c :: cs).take tok.length).map Char.toLower) == tok) || containsCI tok cs

/-- `re.sub(r".*\{marker}.*\n?", "", s, flags=IGNORECASE)`: drop every
line containing the literal marker, case-insensitively. -/
def removeLinesCI (tok : String) (s : String) : String :=
  rebuildLines ((splitOnChar '\n' s).map (fun part => (part, ! containsCI tok.toList part.toList)))

/-- `re.sub(r"{marker}", "", s, flags=IGNORECASE)`: delete every
case-insensitive occurrence of the literal marker. -/
def removeCIGo (tok : List Char) : Nat → List Char → List Char
  | 0, cs => cs
  | _ + 1, [] => []
  | fuel + 1, c :: cs =>
    if tok ≠ [] ∧ (((c :: cs).take tok.length).map Char.toLower) = tok
    then removeCIGo tok fuel ((c :: cs).drop tok.length)
    else c :: removeCIGo tok fuel cs

def removeTokenCI (tok : String) (s : String) : String :=
  String.mk (removeCIGo tok.toList s.toList.length s.toList)

/-- Python `template.replace(full, "")`: delete every occurrence of a
literal (case-sensitively). -/
def removeAllGo (tok : List Char) : Nat → List Char → List Char
  | 0, cs => cs
  | _ + 1, [] => []
  | fuel + 1, c :: cs =>
    if tok ≠ [] ∧ tok.isPrefixOf (c :: cs)
    then removeAllGo tok fuel ((c :: cs).drop tok.length)
    else c :: removeAllGo tok fuel cs

def removeAll (s tok : String) : String :=
  String.mk (removeAllGo tok.toList s.toList.length s.toList)

/-! ### `find_placeholders` -/

structure Placeholder where
  full : String
  pattern : String
  args : List String
deriving DecidableEq, Repr

/-- Characters of `[a-zA-Z0-9_]`. -/
def isNameChar (c : Char) : Bool := c.isAlpha || c.isDigit || c == '_'

/-- Match `{name}` / `{name:payload}` with a generic name at the head;
returns name, args, the full matched text and the remainder. -/
def genMatchAt (cs : List Char) : Option (String × List String × String × List Char) :=
  match cs with
  | '{' :: rest =>
    let name := rest.takeWhile isNameChar
    if name.isEmpty then none else
    match rest.drop name.length with
    | '}' :: r2 => some (String.mk name, [], String.mk ('{' :: (name ++ ['}'])), r2)
    | ':' :: r2 =>
      let payload := r2.takeWhile (fun c => c != '}')
      if payload.isEmpty then none
      else match r2.drop payload.length with
        | '}' :: r3 =>
          some (String.mk name, splitArgs payload,
                String.mk ('{' :: (name ++ (':' :: (payload ++ ['}'])))), r3)
        | _ => none
    | _ => none
  | _ => none

def findGo : Nat → List Char → List Placeholder
  | 0, _ => []
  | _ + 1, [] => []
  | fuel + 1, c :: cs =>
    match genMatchAt (c :: cs) with
    | some (name, args, full, rest) => ⟨full, name, args⟩ :: findGo fuel rest
    | none => findGo fuel cs

/-- `FileContext.find_placeholders`. -/
def find_placeholders (t : String) : List Placeholder :=
  findGo t.toList.length t.toList

/-! ### The per-field resolvers of `FileContext.format`

Each resolver is the body of the corresponding lambda in `format`.  A
lambda of fixed arity called through `func(*args)` raises `TypeError`
when the argument count does not fit; lambdas of shape `lambda *args`
accept anything, and `lambda a=None, b=None, *args` accepts anything
while defaulting missing positions. -/

/-- `{line:N}`: the 1-based line, empty outside `1..len`. -/
def resolveLine (lines : List String) (args : List String) : Except String String :=
  match args with
  | [n] => .ok (if n ≠ "" ∧ pyIsDigit n ∧ 0 < natOf n ∧ natOf n ≤ lines.length
                then lines.getD (natOf n - 1) ("") else (""))
  | _ => .error ("TypeError: line")

/-- `{lines:start;end}`: the unchecked Python slice `lines[start-1:end]`. -/
def resolveLinesRange (lines : List String) (args : List String) : Except String String :=
  .ok (match args.get? 0, args.get? 1 with
    | some s, some e =>
      if s ≠ "" ∧ e ≠ "" ∧ pyIsDigit s ∧ pyIsDigit e
      then joinWith ("\n") (pySliceList lines ((natOf s : Int) - 1) (natOf e))
      else ("")
    | _, _ => (""))

/-- `{head:N}`: `lines[:N]` (clamped by Python slicing). -/
def resolveHead (lines : List String) (args : List String) : Except String String :=
  match args with
  | [n] => .ok (if n ≠ "" ∧ pyIsDigit n
                then joinWith ("\n") (pySliceList lines 0 (natOf n)) else (""))
  | _ => .error ("TypeError: head")

/-- `{tail:N}`: `lines[-N:]` — note `-0` is `0`, so `N = 0` keeps everything. -/
def resolveTail (lines : List String) (args : List String) : Except String String :=
  match args with
  | [n] => .ok (if n ≠ "" ∧ pyIsDigit n
                then joinWith ("\n") (pySliceFrom lines (-(natOf n : Int))) else (""))
  | _ => .error ("TypeError: tail")

/-- `{char:N}`: the 1-based character, empty outside `1..len`. -/
def resolveChar (content : String) (args : List String) : Except String String :=
  match args with
  | [n] => .ok (if n ≠ "" ∧ pyIsDigit n ∧ 0 < natOf n ∧ natOf n ≤ content.length
                then String.mk [content.toList.getD (natOf n - 1) ' '] else (""))
  | _ => .error ("TypeError: char")

/-- `{chars:start;end}`: the unchecked slice `content[start-1:end]`. -/
def resolveCharsRange (content : String) (args : List String) : Except String String :=
  .ok (match args.get? 0, args.get? 1 with
    | some s, some e =>
      if s ≠ "" ∧ e ≠ "" ∧ pyIsDigit s ∧ pyIsDigit e
      then String.mk (pySliceList content.toList ((natOf s : Int) - 1) (natOf e))
      else ("")
    | _, _ => (""))

/-- `{headchars:N}`: `content[:N]`. -/
def resolveHeadChars (content : String) (args : List String) : Except String String :=
  match args with
  | [n] => .ok (if n ≠ "" ∧ pyIsDigit n
                then String.mk (pySliceList content.toList 0 (natOf n)) else (""))
  | _ => .error ("TypeError: headchars")

/-- `{tailchars:N}`: `content[-N:]` — again `N = 0` keeps everything. -/
def resolveTailChars (content : String) (args : List String) : Except String String :=
  match args with
  | [n] => .ok (if n ≠ "" ∧ pyIsDigit n
                then String.mk (pySliceFrom content.toList (-(natOf n : Int))) else (""))
  | _ => .error ("TypeError: tailchars")

/-- `{created}`/`{modified}`/`{accessed}`: default format, or the single
supplied strftime format; `os.stat` raising is an error, two or more
arguments is a `TypeError`. -/
def resolveTime (g : String → String → Option String) (path : String) (args : List String) :
    Except String String :=
  match args with
  | [] => match g path ("%Y-%m-%d %H:%M:%S") with
    | some s => .ok s
    | none => .error ("OSError: stat")
  | [f] => match g path f with
    | some s => .ok s
    | none => .error ("OSError: stat")
  | _ => .error ("TypeError: time")

/-- `{hash:md5}` / `{hash:sha1}`: the raw-byte digest; a raising
`open(path, "rb")` propagates. -/
def resolveHash (h : String → Option String) (path : String) (_args : List String) :
    Except String String :=
  match h path with
  | some d => .ok d
  | none => .error ("OSError: unreadable file")

/-- `{size}`: `os.path.getsize` may raise; its value goes through
`_human_size` and then `str(...)`. -/
def resolveSize (fs : FS) (path : String) (_args : List String) : Except String String :=
  match fs.size path with
  | some n => .ok (pyStrOpt (human_size n))
  | none => .error ("OSError: getsize")

/-- `{content:numbered}`: each original line prefixed `i+1: `. -/
def numberedContent (lines : List String) : String :=
  joinWith ("\n") (lines.enum.map (fun p => toString (p.1 + 1) ++ (": ") ++ p.2))

/-- `remove_blank_lines`: keep the lines with a non-whitespace character,
rejoined with newlines (any trailing newline of the content is lost). -/
def removeBlankLines (c : String) : String :=
  joinWith ("\n") ((pySplitlines c).filter (fun l => l.toList.any (fun ch => ! ch.isWhitespace)))

/-! ### The pass pipeline of `FileContext.format` -/

/-- One pass of `format`: a `_apply_placeholder` substitution, a
`_apply_content_modifier` substitution (which rewrites `self.content`
and erases its token; extra arguments raise `TypeError`), or the
`delete_line=True` substitution used for `{x}`. -/
inductive Pass where
  | ph (pat : String) (resolve : FileContext → List String → Except String String)
  | mod (pat : String) (f : String → String)
  | del (pat : String)

/-- Run one pass over the current (context, text) state. -/
def runPass (st : FileContext × String) (p : Pass) : Except String (FileContext × String) :=
  match p with
  | .ph pat resolve =>
    substT pat (fun fc args => match resolve fc args with
      | .error e => .error e
      | .ok out => .ok (fc, out)) st.1 st.2
  | .mod pat f =>
    substT pat (fun fc args =>
      if args.isEmpty then .ok ({ fc with content := f fc.content }, (""))
      else .error ("TypeError: modifier")) st.1 st.2
  | .del pat => .ok (st.1, deleteLinesTok pat st.2)

def runPasses : List Pass → FileContext × String → Except String (FileContext × String)
  | [], st => .ok st
  | p :: rest, st =>
    match runPass st p with
    | .error e => .error e
    | .ok st1 => runPasses rest st1

/-- The passes of `format` up to (excluding) `{hash:md5}`. -/
def passesA (fs : FS) : List Pass :=
  [ .ph ("name") (fun fc _ => .ok (splitext (basename fc.path)).1)
  , .ph ("extension") (fun fc _ => .ok (lstripDots (splitext (basename fc.path)).2))
  , .ph ("filename") (fun fc _ => .ok (basename fc.path))
  , .ph ("path") (fun fc _ => .ok (slashToBack (normpath fc.path)))
  , .ph ("folder") (fun fc _ => .ok (slashToBack (normpath (dirname fc.path))))
  , .ph ("drive") (fun fc _ => .ok (splitdrive fc.path).1)
  , .ph ("size") (fun fc args => resolveSize fs fc.path args) ]

/-- The passes strictly between `{hash:sha1}` and `{content}`. -/
def passesB (fs : FS) : List Pass :=
  [ .ph ("created") (fun fc args => resolveTime fs.ctimeFmt fc.path args)
  , .ph ("modified") (fun fc args => resolveTime fs.mtimeFmt fc.path args)
  , .ph ("accessed") (fun fc args => resolveTime fs.atimeFmt fc.path args)
  , .ph ("_") (fun _ _ => .ok (" "))
  , .ph ("nl") (fun _ _ => .ok ("\n"))
  , .del ("x")
  , .mod ("upper") upperStr
  , .mod ("lower") lowerStr
  , .mod ("title") pyTitle
  , .mod ("remove_linebreaks") (fun c => String.mk (c.toList.filter (fun ch => ch != '\n')))
  , .mod ("remove_blank_lines") removeBlankLines
  , .mod ("remove_whitespaces") (fun c => joinWith (" ") (pyWords c))
  , .mod ("remove_spaces") (fun c => String.mk (c.toList.filter (fun ch => ch != ' ')))
  , .ph ("content:numbered") (fun fc _ => .ok (numberedContent fc.lines)) ]

/-- The passes after `{content}` (selection, statistics and counters). -/
def passesC : List Pass :=
  [ .ph ("line") (fun fc args => resolveLine fc.lines args)
  , .ph ("lines") (fun fc args => resolveLinesRange fc.lines args)
  , .ph ("head") (fun fc args => resolveHead fc.lines args)
  , .ph ("tail") (fun fc args => resolveTail fc.lines args)
  , .ph ("char") (fun fc args => resolveChar fc.content args)
  , .ph ("chars") (fun fc args => resolveCharsRange fc.content args)
  , .ph ("headchars") (fun fc args => resolveHeadChars fc.content args)
  , .ph ("tailchars") (fun fc args => resolveTailChars fc.content args)
  , .ph ("lines_count") (fun fc _ => .ok (toString fc.lines_count))
  , .ph ("words_count") (fun fc _ => .ok (toString fc.words_count))
  , .ph ("chars_count") (fun fc _ => .ok (toString fc.chars_count))
  , .ph ("counter") (fun fc _ => .ok (toString fc.sess.files_counter))
  , .ph ("current_files_count") (fun fc _ => .ok (toString fc.sess.current_files_count))
  , .ph ("current_lines_count") (fun fc _ => .ok (toString fc.sess.current_lines_count))
  , .ph ("current_words_count") (fun fc _ => .ok (toString fc.sess.current_words_count))
  , .ph ("current_chars_count") (fun fc _ => .ok (toString fc.sess.current_chars_count))
  , .ph ("total_files_count") (fun fc _ => .ok (toString fc.sess.total_files))
  , .ph ("total_lines_count") (fun fc _ => .ok (toString fc.sess.total_lines))
  , .ph ("total_words_count") (fun fc _ => .ok (toString fc.sess.total_words))
  , .ph ("total_chars_count") (fun fc _ => .ok (toString fc.sess.total_chars)) ]

/-- All passes of `FileContext.format`, in source order (the list is
split around the two hash passes and the `{content}` pass only so that
proofs can address those positions). -/
def formatPasses (fs : FS) : List Pass :=
  passesA fs
    ++ (Pass.ph ("hash:md5") (fun fc args => resolveHash fs.md5 fc.path args)
    :: Pass.ph ("hash:sha1") (fun fc args => resolveHash fs.sha1 fc.path args)
    :: (passesB fs
    ++ (Pass.ph ("content") (fun fc _ => .ok fc.content)
    :: passesC)))

/-- `FileContext.format` including the final context state (Python keeps
the mutated `self`; the string result is its second component). -/
def formatSteps (fs : FS) (fc : FileContext) (template : String) :
    Except String (FileContext × String) :=
  if fc.skip_file then .ok (fc, (""))
  else runPasses (formatPasses fs) (fc, template)

/-- `FileContext.format`'s return value. -/
def FileContext.format (fs : FS) (fc : FileContext) (template : String) : Except String String :=
  match formatSteps fs fc template with
  | .error e => .error e
  | .ok st => .ok st.2

/-! ### The merge orchestrator (`FGlueApp.merge_files`) -/

/-- Prepend a dot to an extension name when it lacks one. -/
def dotted (e : String) : String := if strHeadIs e (".") then e else (".") ++ e

/-- The `{skip_ext:...}` block: gather the non-blank arguments of every
`skip_ext` placeholder (lowercased, unstripped); when any exist, drop the
files whose extension is in the dotted set and erase the placeholder
occurrences from the template. -/
def applySkipExt (phs : List Placeholder) (selected : List String) (template : String) :
    List String × String :=
  let skipExts := ((phs.filter (fun p => p.pattern == "skip_ext")).map (fun p => p.args)).flatten
    |>.filter (fun a => pyStrip a != "") |>.map lowerStr
  if skipExts.isEmpty then (selected, template)
  else
    let es := skipExts.map dotted
    ( selected.filter (fun f => ! es.contains (lowerStr (splitext f).2))
    , (phs.filter (fun p => p.pattern == "skip_ext")).foldl (fun t ph => removeAll t ph.full) template )

/-- The `{allow_ext:...}` block: same shape, keeping only the files whose
extension is in the dotted set. -/
def applyAllowExt (phs : List Placeholder) (selected : List String) (template : String) :
    List String × String :=
  let allowExts := ((phs.filter (fun p => p.pattern == "allow_ext")).map (fun p => p.args)).flatten
    |>.filter (fun a => pyStrip a != "") |>.map lowerStr
  if allowExts.isEmpty then (selected, template)
  else
    let es := allowExts.map dotted
    ( selected.filter (fun f => es.contains (lowerStr (splitext f).2))
    , (phs.filter (fun p => p.pattern == "allow_ext")).foldl (fun t ph => removeAll t ph.full) template )

/-- The `{limit_files:n}` block: the first such placeholder with
arguments has its first argument parsed by `int(...)` (raising
`ValueError` on failure) and the list truncated by the Python slice
`selected_files[:limit]`; the placeholder is erased from the template. -/
def applyLimit (phs : List Placeholder) (selected : List String) (template : String) :
    Except String (List String × String) :=
  match phs.find? (fun p => p.pattern == "limit_files") with
  | some ph =>
    if ph.args.isEmpty then .ok (selected, template)
    else match pyInt (ph.args.headD ("")) with
      | some k => .ok (pySliceList selected 0 k, removeAll template ph.full)
      | none => .error ("ValueError: invalid literal for int")
  | none => .ok (selected, template)

/-- Steps 2–3 of the merge: scan the original template once for
placeholders, then apply skip, allow and limit in order. -/
def filterPipeline (template : String) (selected : List String) :
    Except String (List String × String) :=
  let phs := find_placeholders template
  let (sel1, t1) := applySkipExt phs selected template
  let (sel2, t2) := applyAllowExt phs sel1 t1
  applyLimit phs sel2 t2

/-- Step 4: the batch totals over the final file list, each file re-read
independently (an unreadable file counts as empty). -/
def computeTotals (fs : FS) (selected : List String) (sess : Session) : Session :=
  { sess with
    total_files := selected.length
    total_lines := (selected.map (fun p => (pySplitlines ((fs.read p).getD (""))).length)).sum
    total_words := (selected.map (fun p => (pyWords ((fs.read p).getD (""))).length)).sum
    total_chars := (selected.map (fun p => ((fs.read p).getD ("")).length)).sum }

/-- Step 5's per-index boundary-marker resolution, branch for branch as
in the loop body (`i == 0` is tested before `i == count - 1`). -/
def resolveMarkers (i count : Nat) (t : String) : String :=
  if i = 0 then
    removeTokenCI ("{show_before}") (removeLinesCI ("{show_after}") t)
  else if i = count - 1 then
    removeLinesCI ("{show_before}") (removeTokenCI ("{show_after}") t)
  else
    removeLinesCI ("{show_after}") (removeLinesCI ("{show_before}") t)

/-- The same resolution as §4.4/§8 of the specification words it: first,
last and middle cases, with the `count == 1` tie explicitly given to the
first-branch rule. -/
def resolveMarkersSpec (i count : Nat) (t : String) : String :=
  if count = 1 then
    removeTokenCI ("{show_before}") (removeLinesCI ("{show_after}") t)
  else if i = 0 then
    removeTokenCI ("{show_before}") (removeLinesCI ("{show_after}") t)
  else if i = count - 1 then
    removeLinesCI ("{show_before}") (removeTokenCI ("{show_after}") t)
  else
    removeLinesCI ("{show_after}") (removeLinesCI ("{show_before}") t)

/-- Steps 5–6: iterate the surviving list, construct the context (which
bumps the running counters), render the position-resolved template, and
concatenate.  A raising render aborts the merge (nothing catches it). -/
def goRender (fs : FS) (template : String) (count : Nat) :
    Nat → Session → List String → Except String (String × Session)
  | _, sess, [] => .ok (("") , sess)
  | i, sess, p :: rest =>
    match FileContext.format fs (mkFileContext fs sess p) (resolveMarkers i count template) with
    | .error e => .error e
    | .ok piece =>
      match goRender fs template count (i + 1) (mkFileContext fs sess p).sess rest with
      | .error e => .error e
      | .ok (restOut, sessF) => .ok (piece ++ restOut, sessF)

def renderAll (fs : FS) (sess : Session) (template : String) (files : List String) :
    Except String (String × Session) :=
  goRender fs template files.length 0 sess files

/-- `FGlueApp.merge_files` on the post-UI inputs (a chosen template and
the selected file list).  `s0` is the incoming process-wide counter
state; the function starts by resetting it.  The result is the merged
text together with the final counter state. -/
def merge_files (fs : FS) (s0 : Session) (template : String) (selected : List String) :
    Except String (String × Session) :=
  let sess := reset_counters s0
  match filterPipeline template selected with
  | .error e => .error e
  | .ok (files, t) =>
    let sess1 := computeTotals fs files sess
    renderAll fs sess1 t files

/-! ### Auxiliary definitions for the statements below -/

/-- The directive names substituted after the `{content}` pass
(selection, statistics and counter passes, in source order). -/
def postContentPats : List String :=
  [("line"), ("lines"), ("head"), ("tail"), ("char"), ("chars"), ("headchars"), ("tailchars"),
   ("lines_count"), ("words_count"), ("chars_count"), ("counter"),
   ("current_files_count"), ("current_lines_count"), ("current_words_count"),
   ("current_chars_count"),
   ("total_files_count"), ("total_lines_count"), ("total_words_count"), ("total_chars_count")]

/-- A text is clean when no post-`{content}` directive token occurs in it. -/
def noPostTokens (txt : String) : Bool :=
  postContentPats.all (fun p => ! hasTokS p txt)

/-- Fixture: a filesystem with the two files of the specification's
end-to-end scenario; every other oracle fails. -/
def fsA : FS :=
  { read := fun p =>
      if p = "a.txt" then some ("Hello\n\nWorld\n")
      else if p = "b.log" then some ("skip me\n") else none
  , size := fun _ => none
  , md5 := fun _ => none
  , sha1 := fun _ => none
  , ctimeFmt := fun _ _ => none
  , mtimeFmt := fun _ _ => none
  , atimeFmt := fun _ _ => none }

/-- Fixture: a single readable file whose text is itself a directive token. -/
def fsC : FS :=
  { fsA with read := fun p => if p = "c.txt" then some ("{chars_count}") else none }

/-- The template of the end-to-end scenario (C2). -/
def tmplC2 : String :=
  ("{allow_ext:txt}{x}\n{counter}. {filename}: {remove_blank_lines}{content}")

/-- The non-`content` fields a render never touches. -/
def FrameEq (a b : FileContext) : Prop :=
  b.path = a.path ∧ b.lines = a.lines ∧ b.lines_count = a.lines_count ∧
  b.words_count = a.words_count ∧ b.chars_count = a.chars_count ∧
  b.sess = a.sess ∧ b.skip_file = a.skip_file

deriving instance DecidableEq for Except

/-! ## Infrastructure lemmas -/

theorem mkToList (s : String) : String.mk s.toList = s := rfl

/-- The Python slice `l[0:k]` for a nonnegative `k` is `take k`. -/
theorem pySliceList_zero_nat {α : Type} (l : List α) (k : Nat) :
    pySliceList l 0 ((k : Int)) = l.take k := by
  simp only [pySliceList, pySliceIdx]
  have h1 : ¬ ((k : Int) < 0) := by omega
  have h2 : ¬ ((0 : Int) < 0) := by omega
  simp only [h1, h2, if_false, Int.toNat_zero, Int.toNat_natCast, Nat.zero_min,
    List.drop_zero, Nat.sub_zero]
  rcases Nat.le_total k l.length with hk | hk
  · rw [min_eq_left hk]
  · rw [min_eq_right hk, List.take_length, List.take_of_length_le hk]

/-- A pass whose token does not occur leaves state and text unchanged. -/
theorem substGo_copy {σ : Type} (pat : List Char)
    (resolve : σ → List String → Except String (σ × String)) :
    ∀ (fuel : Nat) (cs : List Char) (st : σ), hasTok pat false cs = false →
      substGo pat resolve fuel st cs = .ok (st, cs) := by
  intro fuel
  induction fuel with
  | zero => intro cs st _; rfl
  | succ fuel ih =>
    intro cs st htok
    cases cs with
    | nil => rfl
    | cons c cs0 =>
      have hnone : litMatchAt pat false (c :: cs0) = none := by
        cases h : litMatchAt pat false (c :: cs0) with
        | none => rfl
        | some v => simp [hasTok, h] at htok
      have htok0 : hasTok pat false cs0 = false := by
        simp [hasTok, hnone] at htok
        exact htok
      simp [substGo, hnone, ih cs0 st htok0]

theorem runPass_ph_skip (pat : String) (r : FileContext → List String → Except String String)
    (fc : FileContext) (s : String) (h : hasTokS pat s = false) :
    runPass (fc, s) (.ph pat r) = .ok (fc, s) := by
  simp only [runPass, substT]
  rw [substGo_copy _ _ _ _ _ h]
  rfl

theorem runPass_mod_skip (pat : String) (f : String → String)
    (fc : FileContext) (s : String) (h : hasTokS pat s = false) :
    runPass (fc, s) (.mod pat f) = .ok (fc, s) := by
  simp only [runPass, substT]
  rw [substGo_copy _ _ _ _ _ h]
  rfl

/-- A prefix of passes that all fix the state can be skipped. -/
theorem runPasses_ok_through (ps qs : List Pass) (st : FileContext × String)
    (h : ∀ p ∈ ps, runPass st p = .ok st) :
    runPasses (ps ++ qs) st = runPasses qs st := by
  induction ps with
  | nil => rfl
  | cons p ps ih =>
    simp only [List.cons_append, runPasses]
    rw [h p (by simp)]
    exact ih (fun q hq => h q (by simp [hq]))

/-- A pass raising after a state-fixing prefix aborts the pipeline. -/
theorem runPasses_error_on (ps : List Pass) (q : Pass) (qs : List Pass)
    (st : FileContext × String) (e : String)
    (h : ∀ p ∈ ps, runPass st p = .ok st) (hq : runPass st q = .error e) :
    runPasses (ps ++ q :: qs) st = .error e := by
  rw [runPasses_ok_through ps _ st h]
  simp [runPasses, hq]

theorem frameEq_refl (a : FileContext) : FrameEq a a :=
  ⟨rfl, rfl, rfl, rfl, rfl, rfl, rfl⟩

theorem frameEq_trans {a b c : FileContext} (h1 : FrameEq a b) (h2 : FrameEq b c) :
    FrameEq a c := by
  obtain ⟨p1, l1, lc1, w1, c1, s1, k1⟩ := h1
  obtain ⟨p2, l2, lc2, w2, c2, s2, k2⟩ := h2
  exact ⟨p2.trans p1, l2.trans l1, lc2.trans lc1, w2.trans w1, c2.trans c1,
         s2.trans s1, k2.trans k1⟩

/-- The substitution engine preserves any reflexive-transitive relation
its resolver preserves. -/
theorem substGo_frame {σ : Type} (R : σ → σ → Prop) (hrefl : ∀ a, R a a)
    (htrans : ∀ {a b c}, R a b → R b c → R a c)
    (pat : List Char) (resolve : σ → List String → Except String (σ × String))
    (hres : ∀ st args st' out, resolve st args = .ok (st', out) → R st st') :
    ∀ (fuel : Nat) (st : σ) (cs : List Char) (st' : σ) (cs' : List Char),
      substGo pat resolve fuel st cs = .ok (st', cs') → R st st' := by
  intro fuel
  induction fuel with
  | zero =>
    intro st cs st' cs' h
    simp only [substGo] at h
    cases h
    exact hrefl st
  | succ fuel ih =>
    intro st cs st' cs' h
    cases cs with
    | nil =>
      simp only [substGo] at h
      cases h
      exact hrefl st
    | cons c cs0 =>
      simp only [substGo] at h
      split at h
      · rename_i args rest hm
        split at h
        · cases h
        · rename_i st1 out hres1
          split at h
          · cases h
          · cases h
            exact htrans (hres st args st1 out hres1) (ih st1 rest st' _ (by assumption))
      · rename_i hm
        split at h
        · cases h
        · cases h
          exact ih st cs0 st' _ (by assumption)

/-- Every single pass of `format` leaves the frame fields intact. -/
theorem runPass_frame (st : FileContext × String) (p : Pass)
    (st' : FileContext × String) (h : runPass st p = .ok st') :
    FrameEq st.1 st'.1 := by
  cases p with
  | ph pat r =>
    simp only [runPass, substT] at h
    cases hg : substGo pat.toList
        (fun fc args => match r fc args with
          | .error e => .error e
          | .ok out => .ok (fc, out)) st.2.toList.length st.1 st.2.toList with
    | error e => rw [hg] at h; cases h
    | ok v =>
      rw [hg] at h
      cases h
      exact substGo_frame FrameEq frameEq_refl frameEq_trans _ _
        (by
          intro fc args fc' out hr
          cases hro : r fc args with
          | error e => rw [hro] at hr; cases hr
          | ok o => rw [hro] at hr; cases hr; exact frameEq_refl fc)
        _ _ _ _ _ hg
  | mod pat f =>
    simp only [runPass, substT] at h
    cases hg : substGo pat.toList
        (fun fc args =>
          if args.isEmpty then .ok ({ fc with content := f fc.content }, (""))
          else .error ("TypeError: modifier")) st.2.toList.length st.1 st.2.toList with
    | error e => rw [hg] at h; cases h
    | ok v =>
      rw [hg] at h
      cases h
      exact substGo_frame FrameEq frameEq_refl frameEq_trans _ _
        (by
          intro fc args fc' out hr
          by_cases ha : args.isEmpty
          · simp only [ha, if_true] at hr
            cases hr
            exact ⟨rfl, rfl, rfl, rfl, rfl, rfl, rfl⟩
          · simp only [ha, if_false] at hr
            cases hr)
        _ _ _ _ _ hg
  | del pat =>
    simp only [runPass] at h
    cases h
    exact frameEq_refl st.1

theorem runPasses_frame (ps : List Pass) :
    ∀ (st st' : FileContext × String), runPasses ps st = .ok st' → FrameEq st.1 st'.1 := by
  induction ps with
  | nil =>
    intro st st' h
    simp only [runPasses] at h
    cases h
    exact frameEq_refl st.1
  | cons p ps ih =>
    intro st st' h
    simp only [runPasses] at h
    cases hp : runPass st p with
    | error e => rw [hp] at h; cases h
    | ok st1 =>
      rw [hp] at h
      exact frameEq_trans (runPass_frame st p st1 hp) (ih st1 st' h)

/-! ## The claims -/

/-- C1, counterexample: `reset_counters` zeroes `files_counter` too.  With
five files already counted, resetting yields 0 (not 5), and a fresh merge
renders `{counter}` as `1`, not continuing at `6` as persistence of the
ordinal would demand. -/
theorem c1_counterexample :
    (reset_counters { Session.init with files_counter := 5 }).files_counter = 0
    ∧ ({ Session.init with files_counter := 5 } : Session).files_counter = 5
    ∧ (merge_files fsA { Session.init with files_counter := 5 } ("{counter}")
        [("a.txt")]).toOption.map Prod.fst = some ("1")
    ∧ some ("1") ≠ some ("6") := by
  refine ⟨rfl, rfl, by decide, by decide⟩

/-- C1, amended: resetting the session counters at the start of a merge
clears every counter — the `current_*` and `total_*` layers and
`files_counter` alike — so the counter ordinal restarts in every merge
and the merge result is independent of the incoming session state. -/
theorem c1_theorem :
    (∀ (fs : FS) (s1 s2 : Session) (t : String) (files : List String),
        merge_files fs s1 t files = merge_files fs s2 t files)
    ∧ (∀ s : Session, reset_counters s = Session.init)
    ∧ Session.init.files_counter = 0 :=
  ⟨fun _ _ _ _ _ => rfl, fun _ => rfl, rfl⟩

/-- C2, counterexample: on the specified two-file scenario the merged
output is not `"1. a.txt: Hello\nWorld\n"` — `remove_blank_lines` rejoins
the surviving lines with `"\n"` and drops the file's trailing newline. -/
theorem c2_counterexample :
    (merge_files fsA Session.init tmplC2 [("a.txt"), ("b.log")]).toOption.map Prod.fst
      ≠ some ("1. a.txt: Hello\nWorld\n") := by decide

/-- C2, amended: for the merge of `a.txt` (`"Hello\n\nWorld\n"`) and
`b.log` (`"skip me\n"`) under the template
`"{allow_ext:txt}{x}\n{counter}. {filename}: {remove_blank_lines}{content}"`,
`b.log` is excluded by the allow filter and the output is exactly
`"1. a.txt: Hello\nWorld"` (no trailing newline). -/
theorem c2_theorem :
    (merge_files fsA Session.init tmplC2 [("a.txt"), ("b.log")]).toOption.map Prod.fst
      = some ("1. a.txt: Hello\nWorld") := by decide

/-- C3, counterexample: `{tail:0}` is an in-guard numeric argument
(`"0".isdigit()` holds) yet yields the whole content — `lines[-0:]` is
`lines[0:]` — instead of the empty string the claim requires for a
zero index. -/
theorem c3_counterexample :
    resolveTail [("a"), ("b")] [("0")] = .ok ("a\nb") ∧ ("a\nb") ≠ ("") := by
  refine ⟨by decide, by decide⟩

/-- C3, amended: a non-numeric argument yields the empty string for all
eight numeric directives, and `line`/`char` also yield the empty string
for zero or out-of-bounds indices; but `tail`/`tailchars` return the
whole content for a zero argument, `head`/`tail`/`headchars`/`tailchars`
clamp an out-of-bounds count to the whole content, `lines`/`chars` apply
the unchecked Python slice, and a missing argument to a single-argument
directive raises a `TypeError` that escapes the render. -/
theorem c3_theorem : ∀ (lines : List String) (content : String) (a : String),
    (pyIsDigit a = false →
      resolveLine lines [a] = .ok ("") ∧ resolveHead lines [a] = .ok ("")
      ∧ resolveTail lines [a] = .ok ("") ∧ resolveChar content [a] = .ok ("")
      ∧ resolveHeadChars content [a] = .ok ("") ∧ resolveTailChars content [a] = .ok ("")
      ∧ resolveLinesRange lines [a, a] = .ok ("") ∧ resolveCharsRange content [a, a] = .ok (""))
    ∧ (pyIsDigit a = true → natOf a = 0 ∨ lines.length < natOf a →
        resolveLine lines [a] = .ok (""))
    ∧ (pyIsDigit a = true → natOf a = 0 ∨ content.length < natOf a →
        resolveChar content [a] = .ok (""))
    ∧ (∃ e, resolveLine lines [] = .error e)
    ∧ (pyIsDigit a = true → lines.length ≤ natOf a →
        resolveHead lines [a] = .ok (joinWith ("\n") lines))
    ∧ resolveTail lines [("0")] = .ok (joinWith ("\n") lines)
    ∧ (pyIsDigit a = true → content.length ≤ natOf a →
        resolveHeadChars content [a] = .ok content)
    ∧ resolveTailChars content [("0")] = .ok content := by
  intro lines content a
  refine ⟨?_, ?_, ?_, ⟨("TypeError: line"), rfl⟩, ?_, ?_, ?_, ?_⟩
  · intro h
    refine ⟨?_, ?_, ?_, ?_, ?_, ?_, ?_, ?_⟩ <;>
      simp [resolveLine, resolveHead, resolveTail, resolveChar, resolveHeadChars,
        resolveTailChars, resolveLinesRange, resolveCharsRange, h]
  · intro h hb
    rcases hb with hb | hb <;> simp [resolveLine, h, hb]
  · intro h hb
    rcases hb with hb | hb <;> simp [resolveChar, h, hb]
  · intro h hb
    have ha : a ≠ "" := by
      intro he
      rw [he] at h
      simp [pyIsDigit] at h
    simp only [resolveHead]
    rw [if_pos ⟨ha, h⟩, pySliceList_zero_nat, List.take_of_length_le hb]
  · have hzero : natOf ("0") = 0 := by decide
    simp only [resolveTail]
    rw [if_pos ⟨by decide, by decide⟩, hzero]
    simp only [pySliceFrom, pySliceIdx]
    norm_num
  · intro h hb
    have ha : a ≠ "" := by
      intro he
      rw [he] at h
      simp [pyIsDigit] at h
    simp only [resolveHeadChars]
    rw [if_pos ⟨ha, h⟩, pySliceList_zero_nat]
    rw [List.take_of_length_le (by simpa using hb), mkToList]
  · have hzero : natOf ("0") = 0 := by decide
    simp only [resolveTailChars]
    rw [if_pos ⟨by decide, by decide⟩, hzero]
    simp only [pySliceFrom, pySliceIdx]
    norm_num [mkToList]

/-- C3, witness: the amended behaviour at the non-numeric argument
`"x"` over a concrete two-line context. -/
theorem c3_witness :
    resolveLine [("l1"), ("l2")] [("x")] = .ok ("")
    ∧ resolveHead [("l1"), ("l2")] [("x")] = .ok ("")
    ∧ resolveTail [("l1"), ("l2")] [("x")] = .ok ("")
    ∧ resolveChar ("abc") [("x")] = .ok ("")
    ∧ resolveHeadChars ("abc") [("x")] = .ok ("")
    ∧ resolveTailChars ("abc") [("x")] = .ok ("")
    ∧ resolveLinesRange [("l1"), ("l2")] [("x"), ("x")] = .ok ("")
    ∧ resolveCharsRange ("abc") [("x"), ("x")] = .ok ("") :=
  (c3_theorem [("l1"), ("l2")] ("abc") ("x")).1 (by decide)

/-- C4, counterexample: a `limit_files` argument that does not parse as
an integer makes the whole merge raise `ValueError` instead of leaving
the list unlimited. -/
theorem c4_counterexample :
    merge_files fsA Session.init ("{limit_files:abc}") [("a.txt")]
      = .error ("ValueError: invalid literal for int") := by decide

/-- C4, amended: the list is truncated by the Python slice
`selected_files[:int(arg)]` — the first `N` entries for a non-negative
`N` — but `int(...)` also accepts negative values (which drop entries
from the end), and a parse failure raises `ValueError`, failing the
merge rather than leaving the list unlimited. -/
theorem c4_theorem : ∀ (phs : List Placeholder) (sel : List String) (t : String)
    (ph : Placeholder),
    phs.find? (fun p => p.pattern == "limit_files") = some ph →
    ph.args ≠ [] →
    (∀ k : Int, pyInt (ph.args.headD ("")) = some k →
        applyLimit phs sel t = .ok (pySliceList sel 0 k, removeAll t ph.full))
    ∧ (pyInt (ph.args.headD ("")) = none →
        applyLimit phs sel t = .error ("ValueError: invalid literal for int"))
    ∧ (∀ k : Nat, pySliceList sel 0 (k : Int) = sel.take k) := by
  intro phs sel t ph hfind hargs
  cases hh : ph.args with
  | nil => exact absurd hh hargs
  | cons x xs =>
    refine ⟨?_, ?_, fun k => pySliceList_zero_nat sel k⟩
    · intro k hk
      simp only [List.headD] at hk
      simp [applyLimit, hfind, hh, hk]
    · intro hk
      simp only [List.headD] at hk
      simp [applyLimit, hfind, hh, hk]

/-- C6: boundary-marker resolution is exactly the position-sensitive rule
of the specification, including the first-branch precedence at
`count == 1`: the branch-ordered code agrees with the case-listed
specification at every index of the file list. -/
theorem c6_theorem : ∀ (i count : Nat) (t : String), i < count →
    resolveMarkers i count t = resolveMarkersSpec i count t := by
  intro i count t h
  unfold resolveMarkers resolveMarkersSpec
  by_cases h1 : count = 1
  · have hi : i = 0 := by omega
    simp [h1, hi]
  · by_cases h0 : i = 0
    · simp [h0, h1]
    · by_cases hl : i = count - 1 <;> simp [h0, h1, hl]

/-- C6, witness: the single-file merge (`i = 0`, `count = 1`) keeps the
before-line with the marker stripped and drops the after-line. -/
theorem c6_witness :
    resolveMarkers 0 1 ("{show_before}A\nB{show_after}\nC")
      = resolveMarkersSpec 0 1 ("{show_before}A\nB{show_after}\nC") :=
  c6_theorem 0 1 ("{show_before}A\nB{show_after}\nC") (by decide)

/-- C4, witness: a two-entry limit truncates a three-file list through
the Python slice. -/
theorem c4_witness :
    applyLimit [⟨("{limit_files:2}"), ("limit_files"), [("2")]⟩]
        [("a"), ("b"), ("c")] ("{limit_files:2}Z")
      = .ok (pySliceList [("a"), ("b"), ("c")] 0 2,
             removeAll ("{limit_files:2}Z") ("{limit_files:2}")) :=
  (c4_theorem [⟨("{limit_files:2}"), ("limit_files"), [("2")]⟩] [("a"), ("b"), ("c")]
      ("{limit_files:2}Z") ⟨("{limit_files:2}"), ("limit_files"), [("2")]⟩
      (by decide) (by decide)).1 2 (by decide)

/-- The render loop never touches the `total_*` layer: whatever session
state enters `goRender` keeps its batch totals to the end. -/
theorem goRender_totals (fs : FS) (template : String) (count : Nat) :
    ∀ (files : List String) (i : Nat) (sess : Session) (out : String) (sessF : Session),
      goRender fs template count i sess files = .ok (out, sessF) →
      sessF.total_files = sess.total_files ∧ sessF.total_lines = sess.total_lines
      ∧ sessF.total_words = sess.total_words ∧ sessF.total_chars = sess.total_chars := by
  intro files
  induction files with
  | nil =>
    intro i sess out sessF h
    simp only [goRender] at h
    cases h
    exact ⟨rfl, rfl, rfl, rfl⟩
  | cons p rest ih =>
    intro i sess out sessF h
    simp only [goRender] at h
    split at h
    · cases h
    · split at h
      · cases h
      · cases h
        exact ih (i + 1) (mkFileContext fs sess p).sess _ _ (by assumption)

/-- C7: the merge stores the batch totals — count and raw line/word/char
sums over exactly the filtered-and-limited list, an unreadable file
contributing zero — into the session before any `FileContext` is
constructed, and neither construction nor rendering alters them, so every
file's render (the first included) sees the same totals. -/
theorem c7_theorem : ∀ (fs : FS) (s0 : Session) (t : String) (files L : List String)
    (t3 : String),
    filterPipeline t files = .ok (L, t3) →
    (merge_files fs s0 t files = renderAll fs (computeTotals fs L Session.init) t3 L)
    ∧ (computeTotals fs L Session.init).total_files = L.length
    ∧ (computeTotals fs L Session.init).total_lines
        = (L.map (fun p => (pySplitlines ((fs.read p).getD (""))).length)).sum
    ∧ (computeTotals fs L Session.init).total_words
        = (L.map (fun p => (pyWords ((fs.read p).getD (""))).length)).sum
    ∧ (computeTotals fs L Session.init).total_chars
        = (L.map (fun p => ((fs.read p).getD ("")).length)).sum
    ∧ (∀ sess out sessF, renderAll fs sess t3 L = .ok (out, sessF) →
        sessF.total_files = sess.total_files ∧ sessF.total_lines = sess.total_lines
        ∧ sessF.total_words = sess.total_words ∧ sessF.total_chars = sess.total_chars)
    ∧ (∀ (sess : Session) (q : String),
        (mkFileContext fs sess q).sess.total_files = sess.total_files
        ∧ (mkFileContext fs sess q).sess.total_lines = sess.total_lines
        ∧ (mkFileContext fs sess q).sess.total_words = sess.total_words
        ∧ (mkFileContext fs sess q).sess.total_chars = sess.total_chars)
    ∧ (∀ q : String, fs.read q = none →
        (pySplitlines ((fs.read q).getD (""))).length = 0
        ∧ (pyWords ((fs.read q).getD (""))).length = 0
        ∧ ((fs.read q).getD ("")).length = 0) := by
  intro fs s0 t files L t3 hfp
  refine ⟨?_, rfl, rfl, rfl, rfl, ?_, fun sess q => ⟨rfl, rfl, rfl, rfl⟩, ?_⟩
  · simp [merge_files, reset_counters, hfp]
  · intro sess out sessF h
    exact goRender_totals fs t3 L.length L 0 sess out sessF h
  · intro q hq
    rw [hq]
    exact ⟨by decide, by decide, rfl⟩

/-- C7, witness: the single-file merge of the fixture, with the totals
session threaded explicitly. -/
theorem c7_witness :
    merge_files fsA Session.init ("{counter}") [("a.txt")]
      = renderAll fsA (computeTotals fsA [("a.txt")] Session.init) ("{counter}")
          [("a.txt")] :=
  (c7_theorem fsA Session.init ("{counter}") [("a.txt")] [("a.txt")] ("{counter}")
    (by decide)).1

/-- C10: a render mutates only the `content` field of the context — path,
the `lines` list, the three per-file metrics, the session snapshot and
the skip flag are exactly as construction fixed them, and construction
derives `lines` and the metrics from the original file text. -/
theorem c10_theorem :
    (∀ (fs : FS) (fc : FileContext) (t : String) (fc' : FileContext) (out : String),
        formatSteps fs fc t = .ok (fc', out) →
        fc'.path = fc.path ∧ fc'.lines = fc.lines ∧ fc'.lines_count = fc.lines_count
        ∧ fc'.words_count = fc.words_count ∧ fc'.chars_count = fc.chars_count
        ∧ fc'.sess = fc.sess ∧ fc'.skip_file = fc.skip_file)
    ∧ (∀ (fs : FS) (sess : Session) (p : String),
        (mkFileContext fs sess p).lines = pySplitlines ((fs.read p).getD (""))
        ∧ (mkFileContext fs sess p).lines_count
            = (pySplitlines ((fs.read p).getD (""))).length
        ∧ (mkFileContext fs sess p).words_count = (pyWords ((fs.read p).getD (""))).length
        ∧ (mkFileContext fs sess p).chars_count = ((fs.read p).getD ("")).length) := by
  constructor
  · intro fs fc t fc' out h
    unfold formatSteps at h
    by_cases hs : fc.skip_file = true
    · rw [if_pos hs] at h
      cases h
      exact ⟨rfl, rfl, rfl, rfl, rfl, rfl, rfl⟩
    · rw [if_neg hs] at h
      exact runPasses_frame (formatPasses fs) (fc, t) (fc', out) h
  · intro fs sess p
    exact ⟨rfl, rfl, rfl, rfl⟩

/-- C10, witness: rendering `{upper}{content}` over the fixture file
uppercases the held content but leaves `lines` and the session exactly
as constructed. -/
theorem c10_witness :
    ({ mkFileContext fsA Session.init ("a.txt") with
        content := ("HELLO\n\nWORLD\n") } : FileContext).lines
      = (mkFileContext fsA Session.init ("a.txt")).lines
    ∧ ({ mkFileContext fsA Session.init ("a.txt") with
        content := ("HELLO\n\nWORLD\n") } : FileContext).sess
      = (mkFileContext fsA Session.init ("a.txt")).sess := by
  have h : formatSteps fsA (mkFileContext fsA Session.init ("a.txt")) ("{upper}{content}")
      = .ok ({ mkFileContext fsA Session.init ("a.txt") with
               content := ("HELLO\n\nWORLD\n") }, ("HELLO\n\nWORLD\n")) := by decide
  have hf := c10_theorem.1 fsA (mkFileContext fsA Session.init ("a.txt"))
    ("{upper}{content}") _ _ h
  exact ⟨hf.2.1, hf.2.2.2.2.2.1⟩


/-! ## C8: `_human_size` -/

/-- The two-decimal formatter always produces `⟨int⟩.⟨two digits⟩`. -/
theorem formatTwoDec_shape (q : ℚ) :
    ∃ (ip : Nat) (fr : String), formatTwoDec q = toString ip ++ (".") ++ fr
      ∧ fr.length = 2 ∧ fr.toList.all Char.isDigit = true := by
  refine ⟨(⌊q * 100 + 1 / 2⌋).toNat / 100,
    String.mk [Nat.digitChar ((⌊q * 100 + 1 / 2⌋).toNat / 10 % 10),
               Nat.digitChar ((⌊q * 100 + 1 / 2⌋).toNat % 10)], rfl, rfl, ?_⟩
  have hd : ∀ k, k < 10 → (Nat.digitChar k).isDigit = true := by decide
  simp only [String.toList, List.all_cons, List.all_nil, Bool.and_true, Bool.and_eq_true]
  exact ⟨hd _ (Nat.mod_lt _ (by norm_num)), hd _ (Nat.mod_lt _ (by norm_num))⟩

/-- Past the top of the unit ladder the loop falls through: `None`. -/
theorem humanSizeAux_none : ∀ (us : List String) (q : ℚ),
    ((1024 : ℚ)) ^ us.length ≤ q → humanSizeAux us q = none := by
  intro us
  induction us with
  | nil => intro q _; rfl
  | cons u rest ih =>
    intro q h
    have hbase : (1024 : ℚ) ≤ 1024 ^ (rest.length + 1) := by
      calc (1024 : ℚ) = 1024 ^ 1 := (pow_one _).symm
      _ ≤ 1024 ^ (rest.length + 1) := by
        apply pow_le_pow_right₀ (by norm_num) (by omega)
    have h1 : ¬ q < 1024 := not_lt.mpr (le_trans hbase (by simpa using h))
    simp only [humanSizeAux, h1, if_false]
    apply ih
    rw [le_div_iff₀ (by norm_num : (0 : ℚ) < 1024)]
    calc (1024 : ℚ) ^ rest.length * 1024 = 1024 ^ (rest.length + 1) := by rw [pow_succ]
    _ ≤ q := by simpa using h

/-- Inside the ladder the loop stops at some unit and emits the
two-decimal rendering followed by that unit. -/
theorem humanSizeAux_some : ∀ (us : List String) (q : ℚ), 1 ≤ q →
    q < ((1024 : ℚ)) ^ us.length →
    ∃ u ∈ us, ∃ (ip : Nat) (fr : String),
      humanSizeAux us q = some (toString ip ++ (".") ++ fr ++ (" ") ++ u)
      ∧ fr.length = 2 ∧ fr.toList.all Char.isDigit = true := by
  intro us
  induction us with
  | nil =>
    intro q h1 h2
    simp only [List.length_nil, pow_zero] at h2
    exact absurd (lt_of_le_of_lt h1 h2) (lt_irrefl _)
  | cons u rest ih =>
    intro q h1 h2
    by_cases hq : q < 1024
    · obtain ⟨ip, fr, hfmt, hlen, hdig⟩ := formatTwoDec_shape q
      refine ⟨u, by simp, ip, fr, ?_, hlen, hdig⟩
      simp only [humanSizeAux, hq, if_true]
      rw [hfmt]
    · push_neg at hq
      have h1' : (1 : ℚ) ≤ q / 1024 := by
        rw [le_div_iff₀ (by norm_num : (0 : ℚ) < 1024)]
        simpa using hq
      have h2' : q / 1024 < 1024 ^ rest.length := by
        rw [div_lt_iff₀ (by norm_num : (0 : ℚ) < 1024)]
        calc q < 1024 ^ (rest.length + 1) := by simpa using h2
        _ = 1024 ^ rest.length * 1024 := by rw [pow_succ]
      obtain ⟨v, hv, ip, fr, heq, hlen, hdig⟩ := ih (q / 1024) h1' h2'
      refine ⟨v, by simp [hv], ip, fr, ?_, hlen, hdig⟩
      simpa [humanSizeAux, not_lt.mpr hq] using heq

/-- C8, counterexample: at `1024 ^ 5` bytes the unit list is exhausted
and `_human_size` returns Python `None`, not a string. -/
theorem c8_counterexample : human_size (1024 ^ 5) = none := by
  norm_num [human_size, humanSizeAux, hsUnits]

/-- C8, amended: base-1024 scaling holds on the ladder's range — below
1024 an integer with the smallest unit, from 1024 up to `1024^5` a
two-decimal rendering with one of the larger units — but at `1024^5`
bytes and beyond the function falls off the unit list and returns
`None` instead of a string. -/
theorem c8_theorem : ∀ n : Nat,
    (n < 1024 → human_size n = some (toString n ++ (" Б")))
    ∧ (1024 ≤ n → n < 1024 ^ 5 →
        ∃ u ∈ hsUnits, ∃ (ip : Nat) (fr : String),
          human_size n = some (toString ip ++ (".") ++ fr ++ (" ") ++ u)
          ∧ fr.length = 2 ∧ fr.toList.all Char.isDigit = true)
    ∧ (1024 ^ 5 ≤ n → human_size n = none) := by
  intro n
  have hlen4 : hsUnits.length = 4 := rfl
  refine ⟨?_, ?_, ?_⟩
  · intro h
    simp [human_size, h]
  · intro h1 h2
    have hn : ¬ n < 1024 := by omega
    have hq1 : (1 : ℚ) ≤ (n : ℚ) / 1024 := by
      rw [le_div_iff₀ (by norm_num : (0 : ℚ) < 1024)]
      have hc : (1024 : ℚ) ≤ (n : ℚ) := by exact_mod_cast h1
      simpa using hc
    have hq2 : (n : ℚ) / 1024 < 1024 ^ hsUnits.length := by
      rw [div_lt_iff₀ (by norm_num : (0 : ℚ) < 1024), hlen4]
      have hc : (n : ℚ) < (1024 : ℚ) ^ 5 := by exact_mod_cast h2
      calc (n : ℚ) < 1024 ^ 5 := hc
      _ = 1024 ^ 4 * 1024 := by norm_num
    obtain ⟨u, hu, ip, fr, heq, hlen, hdig⟩ :=
      humanSizeAux_some hsUnits ((n : ℚ) / 1024) hq1 hq2
    exact ⟨u, hu, ip, fr, by simpa [human_size, hn] using heq, hlen, hdig⟩
  · intro h
    have h5 : (1024 : Nat) ^ 5 = 1125899906842624 := by norm_num
    have hn : ¬ n < 1024 := by omega
    simp only [human_size, hn, if_false]
    apply humanSizeAux_none
    rw [le_div_iff₀ (by norm_num : (0 : ℚ) < 1024), hlen4]
    have hc : ((1024 : ℚ)) ^ 5 ≤ (n : ℚ) := by exact_mod_cast h
    calc ((1024 : ℚ)) ^ 4 * 1024 = 1024 ^ 5 := by norm_num
    _ ≤ (n : ℚ) := hc

/-- C8, witness: the integer rendering at the top of the bytes range. -/
theorem c8_witness : human_size 1023 = some (toString 1023 ++ (" Б")) :=
  (c8_theorem 1023).1 (by norm_num)


/-! ## C5 and C9: pipeline-position arguments -/

/-- The passes before `{hash:md5}` all skip on the md5 token. -/
theorem passesA_skip_md5 (fs : FS) (fc : FileContext) :
    ∀ p ∈ passesA fs, runPass (fc, ("{hash:md5}")) p = .ok (fc, ("{hash:md5}")) := by
  intro p hp
  fin_cases hp <;> exact runPass_ph_skip _ _ _ _ (by decide)

/-- The passes before `{hash:sha1}` (including `{hash:md5}`) all skip on
the sha1 token. -/
theorem passesA_skip_sha1 (fs : FS) (fc : FileContext) :
    ∀ p ∈ passesA fs ++ [Pass.ph ("hash:md5") (fun fc args => resolveHash fs.md5 fc.path args)],
      runPass (fc, ("{hash:sha1}")) p = .ok (fc, ("{hash:sha1}")) := by
  intro p hp
  fin_cases hp <;> exact runPass_ph_skip _ _ _ _ (by decide)

/-- C5, counterexample: rendering `{hash:md5}` against a file whose raw
bytes cannot be read raises an error out of the render instead of
substituting the empty string. -/
theorem c5_counterexample :
    FileContext.format fsA (mkFileContext fsA Session.init ("a.txt")) ("{hash:md5}")
      = .error ("OSError: unreadable file")
    ∧ (Except.error ("OSError: unreadable file") : Except String String) ≠ .ok ("") := by
  refine ⟨by decide, by decide⟩

/-- C5, amended: a failing raw-byte read under `{hash:md5}` or
`{hash:sha1}` raises and the exception propagates out of the render —
the hash lambdas have no exception guard (only the construction-time
content read degrades to empty). -/
theorem c5_theorem : ∀ (fs : FS) (fc : FileContext),
    fc.skip_file = false →
    (fs.md5 fc.path = none →
      FileContext.format fs fc ("{hash:md5}") = .error ("OSError: unreadable file"))
    ∧ (fs.sha1 fc.path = none →
      FileContext.format fs fc ("{hash:sha1}") = .error ("OSError: unreadable file")) := by
  intro fs fc hskip
  constructor
  · intro hmd5
    have herr : runPass (fc, ("{hash:md5}"))
        (Pass.ph ("hash:md5") (fun fc args => resolveHash fs.md5 fc.path args))
        = .error ("OSError: unreadable file") := by
      simp [runPass, substT, substGo, litMatchAt, splitArgs, resolveHash, hmd5]
    have hrun : runPasses (formatPasses fs) (fc, ("{hash:md5}"))
        = .error ("OSError: unreadable file") := by
      rw [formatPasses]
      exact runPasses_error_on _ _ _ _ _ (passesA_skip_md5 fs fc) herr
    simp [FileContext.format, formatSteps, hskip, hrun]
  · intro hsha1
    have herr : runPass (fc, ("{hash:sha1}"))
        (Pass.ph ("hash:sha1") (fun fc args => resolveHash fs.sha1 fc.path args))
        = .error ("OSError: unreadable file") := by
      simp [runPass, substT, substGo, litMatchAt, splitArgs, resolveHash, hsha1]
    have hsplit : formatPasses fs
        = (passesA fs
            ++ [Pass.ph ("hash:md5") (fun fc args => resolveHash fs.md5 fc.path args)])
          ++ (Pass.ph ("hash:sha1") (fun fc args => resolveHash fs.sha1 fc.path args)
            :: (passesB fs ++ (Pass.ph ("content") (fun fc _ => .ok fc.content) :: passesC))) := by
      rw [List.append_assoc]
      rfl
    have hrun : runPasses (formatPasses fs) (fc, ("{hash:sha1}"))
        = .error ("OSError: unreadable file") := by
      rw [hsplit]
      exact runPasses_error_on _ _ _ _ _ (passesA_skip_sha1 fs fc) herr
    simp [FileContext.format, formatSteps, hskip, hrun]

/-- C5, witness: the fixture filesystem has no raw access to `a.txt`,
so its render of `{hash:md5}` raises. -/
theorem c5_witness :
    FileContext.format fsA (mkFileContext fsA Session.init ("a.txt")) ("{hash:md5}")
      = .error ("OSError: unreadable file") :=
  (c5_theorem fsA (mkFileContext fsA Session.init ("a.txt")) rfl).1 rfl

/-- Every pass before `{content}` skips on the bare `{content}` template. -/
theorem passesPre_skip_content (fs : FS) (fc : FileContext) :
    ∀ p ∈ passesA fs
        ++ (Pass.ph ("hash:md5") (fun fc args => resolveHash fs.md5 fc.path args)
        :: Pass.ph ("hash:sha1") (fun fc args => resolveHash fs.sha1 fc.path args)
        :: passesB fs),
      runPass (fc, ("{content}")) p = .ok (fc, ("{content}")) := by
  intro p hp
  fin_cases hp <;>
    first
      | exact runPass_ph_skip _ _ _ _ (by decide)
      | exact runPass_mod_skip _ _ _ _ (by decide)
      | (simp only [runPass]
         rw [show deleteLinesTok ("x") ("{content}") = ("{content}") from by decide])

/-- The `{content}` pass substitutes the held content and nothing else. -/
theorem runPass_content (fc : FileContext) :
    runPass (fc, ("{content}")) (Pass.ph ("content") (fun fc _ => .ok fc.content))
      = .ok (fc, fc.content) := by
  simp [runPass, substT, substGo, litMatchAt, splitArgs, mkToList]

/-- C9, counterexample: the file `c.txt` is readable with text
`"{chars_count}"`, yet rendering `{content}` against it yields `"13"` —
the statistics pass rewrites tokens inside the substituted content. -/
theorem c9_counterexample :
    fsC.read ("c.txt") = some ("{chars_count}")
    ∧ FileContext.format fsC (mkFileContext fsC Session.init ("c.txt")) ("{content}")
        = .ok ("13")
    ∧ (("13") : String) ≠ ("{chars_count}") := by
  refine ⟨rfl, by decide, by decide⟩

/-- C9, amended: rendering the bare `{content}` template reproduces the
file's decoded text exactly whenever that text contains no directive
token of a pass ordered after the content substitution (the selection,
statistics and counter directives); a text containing such a token is
rewritten by those later passes. -/
theorem c9_theorem : ∀ (fs : FS) (sess : Session) (path txt : String),
    fs.read path = some txt → noPostTokens txt = true →
    FileContext.format fs (mkFileContext fs sess path) ("{content}") = .ok txt := by
  intro fs sess path txt hread hclean
  have hH : ∀ pt ∈ postContentPats, hasTokS pt txt = false := by
    simp only [noPostTokens] at hclean
    intro pt hpt
    have h := List.all_eq_true.mp hclean pt hpt
    simpa using h
  have hcontent : (mkFileContext fs sess path).content = txt := by
    simp [mkFileContext, hread]
  have hpost : ∀ p ∈ passesC,
      runPass ((mkFileContext fs sess path), txt) p
        = .ok ((mkFileContext fs sess path), txt) := by
    intro p hp
    fin_cases hp <;> exact runPass_ph_skip _ _ _ _ (hH _ (by decide))
  have hsplit : formatPasses fs
      = (passesA fs
          ++ (Pass.ph ("hash:md5") (fun fc args => resolveHash fs.md5 fc.path args)
          :: Pass.ph ("hash:sha1") (fun fc args => resolveHash fs.sha1 fc.path args)
          :: passesB fs))
        ++ (Pass.ph ("content") (fun fc _ => .ok fc.content) :: passesC) := by
    simp [formatPasses, passesA, passesB, passesC]
  have hrun : runPasses (formatPasses fs) ((mkFileContext fs sess path), ("{content}"))
      = .ok ((mkFileContext fs sess path), txt) := by
    rw [hsplit, runPasses_ok_through _ _ _ (passesPre_skip_content fs _)]
    simp only [runPasses, runPass_content]
    rw [hcontent]
    have h0 := runPasses_ok_through passesC [] ((mkFileContext fs sess path), txt) hpost
    simpa [runPasses] using h0
  have hskip : (mkFileContext fs sess path).skip_file = false := rfl
  simp [FileContext.format, formatSteps, hskip, hrun]

/-- C9, witness: the fixture file round-trips through `{content}`. -/
theorem c9_witness :
    FileContext.format fsA (mkFileContext fsA Session.init ("a.txt")) ("{content}")
      = .ok ("Hello\n\nWorld\n") :=
  c9_theorem fsA Session.init ("a.txt") ("Hello\n\nWorld\n") (by decide) (by decide)

end FGlue
